import Mathlib

/-!
A shallow embedding of `src/net_parser/config/BaseConfigParser.py` and the
spec-described pieces of `BaseConfigLine` it relies on, together with proofs
about the indent normalizer (`fix_indents`), the query engine (`find_objects`),
the section resolver (`get_section_by_parents`) and the property extractor
(`match_to_dict`, `property_autoparse`, `section_property_autoparse`).

Modelling conventions:
- Regular expressions are embedded as matching oracles: a `Pattern` carries a
  `search` function (the result of matching the pattern against a line's text)
  and the list of its named capture groups (`groupindex`).  `re.compile` is an
  oracle `String → Option Pattern` returning `none` exactly when compilation
  fails (the source catches the exception and turns it into a null pattern).
- Python values that queries return are embedded as `PyVal` with Python's
  truthiness; Python exceptions (`AttributeError`, `TypeError`) as `Except`.
- The class `BaseConfigLine` is imported by the source from
  `net_parser.config` but its file is not among the sources; its members
  (`re_search`, `re_match`, `re_search_children`, `is_parent`, `get_children`)
  are modelled from the spec and marked as such in their doc comments.
-/

namespace NetParser

/-- Result of a successful regex search (`re.Match`): the whole matched text
and the named-capture-group mapping (`groupdict()`), where a named group that
did not participate in the match maps to `none`. -/
structure ReMatch where
  whole : String
  groups : List (String × Option String)
deriving DecidableEq

/-- A compiled regular expression (`re.Pattern`), embedded as a matching
oracle: `search text` is the match of the pattern against a line's text
(`none` when it does not match), and `groupindex` lists the pattern's named
groups (the keys of `re.Pattern.groupindex`). -/
structure Pattern where
  search : String → Option ReMatch
  groupindex : List String

/-- The `group` argument of `re_search` and `find_objects`: the sentinel
`"ALL"` or a group name.  (A numeric group index behaves like a name through
the matching oracle.) -/
inductive GroupArg where
  | all
  | name (g : String)
deriving DecidableEq

/-- A Python value as returned by `re_search`: `None`, a string, a dict of
named groups, or a match object. -/
inductive PyVal where
  | none
  | str (s : String)
  | dict (d : List (String × Option String))
  | matchObj (m : ReMatch)
deriving DecidableEq

/-- Python truthiness of a `PyVal` (`if result:` in the source): `None` is
falsy, a string is truthy iff non-empty, a dict iff non-empty, a match object
is always truthy. -/
def PyVal.truthy : PyVal → Bool
  | PyVal.none => false
  | PyVal.str s => !s.isEmpty
  | PyVal.dict d => !d.isEmpty
  | PyVal.matchObj _ => true

/-- A Python dict with string keys and optional-string values, as an ordered
association list (insertion order, unique keys when built by `dictUpdate`). -/
abbrev Dict := List (String × Option String)

/-- Setting one key of a Python dict: an existing key keeps its position and
gets the new value, a new key is appended at the end. -/
def dsetKey : Dict → String → Option String → Dict
  | [], k, v => [(k, v)]
  | kv :: t, k, v => if kv.1 = k then (k, v) :: t else kv :: dsetKey t k v

/-- Python's `dict.update`: the keys of `u` are set into `d` in order, later
values overwriting earlier ones. -/
def dictUpdate (d : Dict) (u : Dict) : Dict :=
  u.foldl (fun acc kv => dsetKey acc kv.1 kv.2) d

/-- Modelled from the spec: one parsed config line (`BaseConfigLine`, whose
source file is not under `src/`): the line's `text` and its owned, ordered
`children` (spec §3). -/
inductive ConfigLine where
  | mk (text : String) (children : List ConfigLine)

def ConfigLine.text : ConfigLine → String
  | ConfigLine.mk t _ => t

def ConfigLine.get_children : ConfigLine → List ConfigLine
  | ConfigLine.mk _ cs => cs

/-- Modelled from the spec: a node is a parent iff at least one node attaches
to it as a child (spec §3: "a node is a 'parent' (has children) iff ..."). -/
def ConfigLine.is_parent (self : ConfigLine) : Bool :=
  !self.get_children.isEmpty

/-- Modelled from the spec: `BaseConfigLine.re_search` (spec §4.3, §7). A null
pattern matches nothing; on a match, no `group` returns the match object,
`group="ALL"` returns the full named-capture-group mapping, and a group name
returns that group's captured value (`None` when the group did not capture). -/
def ConfigLine.re_search (self : ConfigLine) (regex : Option Pattern)
    (group : Option GroupArg) : PyVal :=
  match regex with
  | Option.none => PyVal.none
  | Option.some pat =>
    match pat.search self.text with
    | Option.none => PyVal.none
    | Option.some m =>
      match group with
      | Option.none => PyVal.matchObj m
      | Option.some GroupArg.all => PyVal.dict m.groups
      | Option.some (GroupArg.name g) =>
        match m.groups.lookup g with
        | Option.some (Option.some v) => PyVal.str v
        | _ => PyVal.none

/-- Modelled from the spec: `BaseConfigLine.re_match` — whether the line's
text matches the pattern (spec §4.4, condition (b)); through the matching
oracle this is search success. -/
def ConfigLine.re_match (self : ConfigLine) (p : Pattern) : Bool :=
  (p.search self.text).isSome

/-- Modelled from the spec: `BaseConfigLine.re_search_children` — the results
of `re_search` over the node's direct children, keeping the children that
match (spec §4.5: "searches only the candidate's direct children"). -/
def ConfigLine.re_search_children (self : ConfigLine) (regex : Option Pattern)
    (group : Option GroupArg) : List PyVal :=
  self.get_children.filterMap (fun child =>
    match child.re_search regex group with
    | PyVal.none => Option.none
    | v => Option.some v)

/-- The parser state (`BaseConfigParser`).  Config loading and logging are out
of scope; `lines` is the node list built by `parse`.  `minimal_results` is
`Option.none` when the attribute has never been assigned — reading it then
raises `AttributeError` (Python attribute semantics). -/
structure BaseConfigParser where
  verbosity : Nat
  lines : List ConfigLine
  minimal_results : Option Bool

/-- `BaseConfigParser.__init__` (source lines 15–64): assigns `verbosity`,
`logger`, `_config` and `lines = []`.  It never assigns `minimal_results`,
modelled by the field being `Option.none`. -/
def BaseConfigParser.init (verbosity : Nat) : BaseConfigParser :=
  ⟨verbosity, [], Option.none⟩

/-- A Python exception as degraded to a value: `AttributeError` (reading an
attribute never assigned) or `TypeError`. -/
inductive PyErr where
  | attributeError
  | typeError
deriving DecidableEq

/-- `_get_indent` (source lines 100–102):
`len(line) - len(line.lstrip(" "))`, i.e. the number of leading spaces,
computed on the line's character list. -/
def _get_indent (line : String) : Nat :=
  line.data.length - (line.data.dropWhile (fun c => c == ' ')).length

/-- One iteration of the `fix_indents` loop for `i ≥ 1` (source lines
141–152): a raw indent of 0 resets the depth to 0; otherwise the depth is
copied, increased by one, or decreased by one according to how the raw indent
compares with the previous line's raw indent. -/
def fixStep (prevRaw : Nat) (prevFixed : Int) (ind : Nat) : Int :=
  if ind = 0 then 0
  else if ind = prevRaw then prevFixed
  else if ind > prevRaw then prevFixed + 1
  else prevFixed - 1

/-- The `fix_indents` loop over the non-first raw indents, carrying the
previous raw indent and the previous normalized depth
(`fixed_indent_map[-1]`). -/
def fixIndentsGo (prevRaw : Nat) (prevFixed : Int) : List Nat → List Int
  | [] => []
  | ind :: rest =>
    fixStep prevRaw prevFixed ind ::
      fixIndentsGo ind (fixStep prevRaw prevFixed ind) rest

/-- `fixed_indent_map` as built by `fix_indents` (source lines 134–152): the
first line's depth is 0 (line 139), the rest by `fixStep`. -/
def fixed_indent_map (config_lines_str : List String) : List Int :=
  match config_lines_str.map _get_indent with
  | [] => []
  | ind0 :: rest => 0 :: fixIndentsGo ind0 0 rest

/-- `fix_indents` (source lines 128–155): each line is rewritten as `depth`
spaces followed by the stripped content (a negative depth yields no spaces,
as `" " * val` does in Python). -/
def fix_indents (config_lines_str : List String) : List String :=
  List.zipWith (fun v l => String.mk (List.replicate v.toNat ' ') ++ l.trim)
    (fixed_indent_map config_lines_str) config_lines_str

/-- The depth rule the code actually implements, per line: a line whose raw
indent is 0 is reset to depth 0; otherwise the previous depth is copied or
moved by one step according to the comparison of raw indents. -/
def depthRule (prevRaw : Nat) (prevFixed : Int) (raw : Nat) : Int :=
  if raw = 0 then 0
  else
    match compare raw prevRaw with
    | Ordering.eq => prevFixed
    | Ordering.gt => prevFixed + 1
    | Ordering.lt => prevFixed - 1

/-- The per-line rule exactly as the claim (spec §4.1) states it: only the
three comparison cases, with no special case for a raw indent of 0. -/
def specStep (prevRaw : Nat) (prevFixed : Int) (raw : Nat) : Int :=
  if raw = prevRaw then prevFixed
  else if raw > prevRaw then prevFixed + 1
  else prevFixed - 1

/-- The loop of the claim's rule, analogous to `fixIndentsGo`. -/
def specGo (prevRaw : Nat) (prevFixed : Int) : List Nat → List Int
  | [] => []
  | ind :: rest =>
    specStep prevRaw prevFixed ind ::
      specGo ind (specStep prevRaw prevFixed ind) rest

/-- The normalized depths the claim's rule would produce (first line 0, then
`specStep`), for comparison with `fixed_indent_map`. -/
def fixed_indent_map_spec (config_lines_str : List String) : List Int :=
  match config_lines_str.map _get_indent with
  | [] => []
  | ind0 :: rest => 0 :: specGo ind0 0 rest

/-- `_compile_regex` (source lines 172–185): `re.compile` wrapped in
`try/except`; on failure the error is logged and `None` is returned.  The
compilation oracle `compile` returns `none` exactly for the strings whose
compilation fails. -/
def _compile_regex (compile : String → Option Pattern) (regex : String) :
    Option Pattern :=
  compile regex

/-- The pattern `find_objects` actually searches with (source lines 211–215):
a text regex goes through `_compile_regex` (so a compile failure gives a null
pattern), a compiled pattern is used as-is. -/
def effectivePattern (compile : String → Option Pattern)
    (regex : Sum String Pattern) : Option Pattern :=
  match regex with
  | Sum.inl s => _compile_regex compile s
  | Sum.inr p => Option.some p

/-- The `lines` accumulator of the `find_objects` loop (source lines
216–222): the nodes whose `re_search` result is truthy. -/
def findMatchingLines (self : BaseConfigParser)
    (compile : String → Option Pattern) (regex : Sum String Pattern)
    (group : Option GroupArg) : List ConfigLine :=
  self.lines.filter
    (fun l => (l.re_search (effectivePattern compile regex) group).truthy)

/-- The `results` accumulator of the `find_objects` loop (source lines
216–222): the truthy `re_search` results, in node order. -/
def findResults (self : BaseConfigParser)
    (compile : String → Option Pattern) (regex : Sum String Pattern)
    (group : Option GroupArg) : List PyVal :=
  self.lines.filterMap (fun l =>
    let r := l.re_search (effectivePattern compile regex) group
    if r.truthy then Option.some r else Option.none)

/-- `find_objects` (source lines 187–228): with no `group` it returns the
matching nodes (`results = list(lines)`), with a `group` the collected
`re_search` values. -/
def find_objects (self : BaseConfigParser)
    (compile : String → Option Pattern) (regex : Sum String Pattern)
    (group : Option GroupArg) : Sum (List ConfigLine) (List PyVal) :=
  match group with
  | Option.none => Sum.inl (findMatchingLines self compile regex group)
  | Option.some _ => Sum.inr (findResults self compile regex group)

/-- The error logged by `get_section_by_parents` when several candidates
match (source line 239). -/
def multipleLinesMatchedMsg : String :=
  "Multiple lines matched parent statement. Cannot determine config section."

/-- The error logged by `get_section_by_parents` when no candidate matches
(source line 242). -/
def noLinesMatchedMsg : String :=
  "No lines matched parent statement. Cannot determine config section."

/-- The warning logged by `section_property_autoparse` when several children
match one pattern (source line 315). -/
def multipleUpdatesMsg : String :=
  "Multiple possible updates found for Pattern on Candidate"

/-- The loop of `get_section_by_parents` (source lines 234–243), returning
the resulting section together with the error messages logged.  At each step
the current candidates are narrowed to those that are parents and match the
pattern; exactly one survivor hands its children to the next step, zero or
several end the walk with an empty result and the corresponding log line. -/
def sectionWalk : List Pattern → List ConfigLine → List ConfigLine × List String
  | [], sec => (sec, [])
  | parent :: rest, sec =>
    match (sec.filter (fun x => x.is_parent && x.re_match parent)).map
        ConfigLine.get_children with
    | [s] => sectionWalk rest s
    | [] => ([], [noLinesMatchedMsg])
    | _ => ([], [multipleLinesMatchedMsg])

/-- `get_section_by_parents` (source lines 230–244). -/
def get_section_by_parents (self : BaseConfigParser) (parents : List Pattern) :
    List ConfigLine × List String :=
  sectionWalk parents self.lines

/-- The loop of `match_to_dict` (source lines 260–268): each pattern's
groupdict is merged into the entry; a pattern that does not match reads
`self.minimal_results` (raising `AttributeError` when it was never assigned)
and either skips the pattern's keys or inserts them with value `None`. -/
def matchToDictGo (minimal_results : Option Bool) (line : ConfigLine) :
    List Pattern → Dict → Except PyErr Dict
  | [], entry => Except.ok entry
  | pattern :: rest, entry =>
    match line.re_search (Option.some pattern) (Option.some GroupArg.all) with
    | PyVal.dict d => matchToDictGo minimal_results line rest (dictUpdate entry d)
    | PyVal.none =>
      match minimal_results with
      | Option.none => Except.error PyErr.attributeError
      | Option.some true => matchToDictGo minimal_results line rest entry
      | Option.some false =>
        matchToDictGo minimal_results line rest
          (dictUpdate entry
            (pattern.groupindex.map (fun k => (k, (Option.none : Option String)))))
    | _ => Except.error PyErr.typeError

/-- `match_to_dict` (source lines 246–269). -/
def match_to_dict (self : BaseConfigParser) (line : ConfigLine)
    (patterns : List Pattern) : Except PyErr Dict :=
  matchToDictGo self.minimal_results line patterns []

/-- `property_autoparse` (source lines 271–289): when no line matches the
candidate pattern, `properties` stays `None` and is returned as such;
otherwise one dict per candidate, in order. -/
def property_autoparse (self : BaseConfigParser)
    (compile : String → Option Pattern) (candidate_pattern : Sum String Pattern)
    (patterns : List Pattern) : Except PyErr (Option (List Dict)) :=
  let candidates := findMatchingLines self compile candidate_pattern Option.none
  if candidates.isEmpty then Except.ok Option.none
  else do
    let ds ← candidates.mapM (fun c => match_to_dict self c patterns)
    Except.ok (Option.some ds)

/-- The `parent` argument of `section_property_autoparse` (source lines
293–296): a `BaseConfigLine` or a regex (text or compiled). -/
inductive ParentArg where
  | node (l : ConfigLine)
  | regex (r : Sum String Pattern)

/-- The pattern list `section_property_autoparse` hands to `match_to_dict`
for the parent merge (source line 304).  The source passes `[parent]` itself;
a text parent is compiled on use by `re_search`, so it is embedded as its
compiled pattern.  A parent whose compilation fails yields no candidates in
`find_objects` (the null pattern matches nothing), so that case never reaches
the merge. -/
def parentMergePatterns (compile : String → Option Pattern) :
    Sum String Pattern → List Pattern
  | Sum.inl s => (compile s).toList
  | Sum.inr p => [p]

/-- The inner pattern loop of `section_property_autoparse` (source lines
305–315), with the warnings it logs: exactly one matching child merges its
groupdict into the entry; zero matching children apply the minimal-results
policy (reading `self.minimal_results`); several matching children log a
warning and leave the entry unchanged. -/
def spaPatterns (minimal_results : Option Bool) (candidate : ConfigLine) :
    List Pattern → Dict → List String → Except PyErr (Dict × List String)
  | [], entry, logs => Except.ok (entry, logs)
  | pattern :: rest, entry, logs =>
    match candidate.re_search_children (Option.some pattern)
        (Option.some GroupArg.all) with
    | [PyVal.dict d] =>
      spaPatterns minimal_results candidate rest (dictUpdate entry d) logs
    | [_] => Except.error PyErr.typeError
    | [] =>
      match minimal_results with
      | Option.none => Except.error PyErr.attributeError
      | Option.some true => spaPatterns minimal_results candidate rest entry logs
      | Option.some false =>
        spaPatterns minimal_results candidate rest
          (dictUpdate entry
            (pattern.groupindex.map (fun k => (k, (Option.none : Option String)))))
          logs
    | _ =>
      spaPatterns minimal_results candidate rest entry
        (logs ++ [multipleUpdatesMsg])

/-- The candidate loop of `section_property_autoparse` (source lines
301–319): per candidate, an empty entry, optionally merged with the parent
pattern's groupdict, then the pattern loop; the entry (optionally paired with
the candidate) is appended. -/
def spaLoop (self : BaseConfigParser) (compile : String → Option Pattern)
    (parent : ParentArg) (patterns : List Pattern) (return_with_line : Bool) :
    List ConfigLine → Except PyErr (List (Sum Dict (ConfigLine × Dict)) × List String)
  | [] => Except.ok ([], [])
  | candidate :: rest => do
    let base ←
      match parent with
      | ParentArg.regex r =>
        match_to_dict self candidate (parentMergePatterns compile r)
      | ParentArg.node _ => Except.ok ([] : Dict)
    let (entry, logs) ←
      spaPatterns self.minimal_results candidate patterns (dictUpdate [] base) []
    let (entries, logs2) ← spaLoop self compile parent patterns return_with_line rest
    Except.ok
      ((if return_with_line then Sum.inr (candidate, entry) else Sum.inl entry)
          :: entries,
        logs ++ logs2)

/-- `section_property_autoparse` (source lines 291–320): a node parent is its
own single candidate, a regex parent selects candidates through
`find_objects`; no candidate returns `None`, otherwise one entry per
candidate, with the warnings logged along the way. -/
def section_property_autoparse (self : BaseConfigParser)
    (compile : String → Option Pattern) (parent : ParentArg)
    (patterns : List Pattern) (return_with_line : Bool) :
    Except PyErr (Option (List (Sum Dict (ConfigLine × Dict))) × List String) :=
  let candidates : List ConfigLine :=
    match parent with
    | ParentArg.node l => [l]
    | ParentArg.regex r => findMatchingLines self compile r Option.none
  if candidates.isEmpty then Except.ok (Option.none, [])
  else do
    let (entries, logs) ←
      spaLoop self compile parent patterns return_with_line candidates
    Except.ok (Option.some entries, logs)

lemma depthRule_eq_fixStep (pr : Nat) (pf : Int) (ind : Nat) :
    depthRule pr pf ind = fixStep pr pf ind := by
  unfold depthRule fixStep
  by_cases h0 : ind = 0
  · simp [h0]
  · simp only [h0, if_false]
    rcases Nat.lt_trichotomy ind pr with h | h | h
    · rw [compare_lt_iff_lt.mpr h]
      simp [Nat.ne_of_lt h, Nat.lt_asymm h]
    · rw [compare_eq_iff_eq.mpr h]
      simp [h]
    · rw [compare_gt_iff_gt.mpr h]
      simp [Nat.ne_of_gt h, h]

lemma fixIndentsGo_step :
    ∀ (inds : List Nat) (pr : Nat) (pf : Int) (i : Nat) {ia ib : Nat} {a : Int},
      inds.get? i = Option.some ia → inds.get? (i + 1) = Option.some ib →
      (fixIndentsGo pr pf inds).get? i = Option.some a →
      (fixIndentsGo pr pf inds).get? (i + 1) =
        Option.some (fixStep ia a ib) := by
  intro inds
  induction inds with
  | nil => intro pr pf i ia ib a h1 h2 h3; simp at h1
  | cons c t ih =>
    intro pr pf i ia ib a h1 h2 h3
    cases i with
    | zero =>
      simp only [List.get?_cons_zero, Option.some.injEq] at h1 h3
      cases t with
      | nil => simp at h2
      | cons b' t' =>
        simp only [List.get?_cons_succ, List.get?_cons_zero,
          Option.some.injEq] at h2
        subst h1 h2
        simp only [fixIndentsGo, List.get?_cons_zero, Option.some.injEq] at h3
        simp [fixIndentsGo, h3]
    | succ i =>
      simp only [List.get?_cons_succ] at h1 h2 h3 ⊢
      simp only [fixIndentsGo, List.get?_cons_succ] at h3 ⊢
      exact ih c (fixStep pr pf c) i h1 h2 h3

lemma fixed_indent_map_step (lines : List String) (i : Nat) {li li1 : String}
    {a : Int} (h1 : lines.get? i = Option.some li)
    (h2 : lines.get? (i + 1) = Option.some li1)
    (h3 : (fixed_indent_map lines).get? i = Option.some a) :
    (fixed_indent_map lines).get? (i + 1) =
      Option.some (fixStep (_get_indent li) a (_get_indent li1)) := by
  cases lines with
  | nil => simp at h1
  | cons l0 lt =>
    simp only [fixed_indent_map, List.map_cons] at h3 ⊢
    cases i with
    | zero =>
      simp only [List.get?_cons_zero, Option.some.injEq] at h1 h3
      cases lt with
      | nil => simp at h2
      | cons l1 lt' =>
        simp only [List.get?_cons_succ, List.get?_cons_zero,
          Option.some.injEq] at h2
        subst h1 h2
        simp [fixIndentsGo, h3.symm]
    | succ i =>
      simp only [List.get?_cons_succ] at h1 h2 h3 ⊢
      have hm1 : (lt.map _get_indent).get? i = Option.some (_get_indent li) := by
        rw [List.get?_map, h1]; rfl
      have hm2 : (lt.map _get_indent).get? (i + 1) =
          Option.some (_get_indent li1) := by
        rw [List.get?_map, h2]; rfl
      exact fixIndentsGo_step (lt.map _get_indent) (_get_indent l0) 0 i hm1 hm2 h3

lemma fixIndentsGo_lower :
    ∀ (inds : List Nat) (pr : Nat) (pf : Int) (j : Nat) {b : Int},
      (fixIndentsGo pr pf inds).get? j = Option.some b →
      min pf 0 - (j + 1) ≤ b := by
  intro inds
  induction inds with
  | nil => intro pr pf j b h; simp [fixIndentsGo] at h
  | cons c t ih =>
    intro pr pf j b h
    cases j with
    | zero =>
      simp only [fixIndentsGo, List.get?_cons_zero, Option.some.injEq] at h
      subst h
      unfold fixStep
      split_ifs <;> omega
    | succ j =>
      simp only [fixIndentsGo, List.get?_cons_succ] at h
      have hb := ih c (fixStep pr pf c) j h
      have hstep : min pf 0 - 1 ≤ min (fixStep pr pf c) 0 := by
        unfold fixStep
        split_ifs <;> omega
      omega

/-- C1 (amended): the first normalized depth is 0, and between adjacent lines
the normalized depth moves by −1, 0 or +1, except that a line whose raw
indent is 0 has its depth reset to 0 (which can jump by more than one in
either direction). -/
theorem fixed_indent_map_unit_step (lines : List String) :
    (lines = [] ∨ (fixed_indent_map lines).get? 0 = Option.some 0) ∧
    (∀ i : Nat, ∀ li1 : String, ∀ a b : Int,
      lines.get? (i + 1) = Option.some li1 →
      (fixed_indent_map lines).get? i = Option.some a →
      (fixed_indent_map lines).get? (i + 1) = Option.some b →
      (b - a = -1 ∨ b - a = 0 ∨ b - a = 1) ∨ (_get_indent li1 = 0 ∧ b = 0)) := by
  constructor
  · cases lines with
    | nil => exact Or.inl rfl
    | cons l0 lt => exact Or.inr (by simp [fixed_indent_map])
  · intro i li1 a b h2 h3 h4
    have hi1 : i + 1 < lines.length := (List.get?_eq_some.mp h2).1
    have hi : i < lines.length := Nat.lt_of_succ_lt hi1
    obtain ⟨li, h1⟩ : ∃ li, lines.get? i = Option.some li := by
      cases hli : lines.get? i with
      | none => exact absurd (List.get?_eq_none.mp hli) (Nat.not_le.mpr hi)
      | some li => exact ⟨li, rfl⟩
    have hstep := fixed_indent_map_step lines i h1 h2 h3
    rw [h4] at hstep
    have hb : b = fixStep (_get_indent li) a (_get_indent li1) :=
      Option.some.inj hstep
    unfold fixStep at hb
    split_ifs at hb with hz he hg
    · exact Or.inr ⟨hz, hb⟩
    · subst hb; left; omega
    · subst hb; left; omega
    · subst hb; left; omega

/-- C1 (counterexample): on the input `["a", " b", "  c", "d"]` the
normalized depths are `[0, 1, 2, 0]`: the last adjacent delta is −2, outside
`{-1, 0, +1}`. -/
theorem fixed_indent_map_unit_step_cex :
    (fixed_indent_map ["a", " b", "  c", "d"]).get? 2 = Option.some 2 ∧
    (fixed_indent_map ["a", " b", "  c", "d"]).get? 3 = Option.some 0 ∧
    ¬((0 : Int) - 2 = -1 ∨ (0 : Int) - 2 = 0 ∨ (0 : Int) - 2 = 1) := by
  decide

/-- C1 (witness): the amended statement applied to the input `["a", " b"]`
at the adjacent pair (0, 1). -/
theorem fixed_indent_map_unit_step_witness :
    ((1 : Int) - 0 = -1 ∨ (1 : Int) - 0 = 0 ∨ (1 : Int) - 0 = 1) ∨
      (_get_indent " b" = 0 ∧ (1 : Int) = 0) :=
  (fixed_indent_map_unit_step ["a", " b"]).2 0 " b" 0 1 rfl rfl rfl

/-- C2 (amended): the first line's depth is 0 and every later line's depth is
`depthRule` of the previous raw indent, the previous depth and its own raw
indent: depth 0 when its raw indent is 0, and otherwise the previous depth
copied, increased by one, or decreased by one according to the comparison of
raw indents. -/
theorem fixed_indent_map_rule (lines : List String) :
    (lines = [] ∨ (fixed_indent_map lines).get? 0 = Option.some 0) ∧
    (∀ i : Nat, ∀ li li1 : String, ∀ a : Int,
      lines.get? i = Option.some li →
      lines.get? (i + 1) = Option.some li1 →
      (fixed_indent_map lines).get? i = Option.some a →
      (fixed_indent_map lines).get? (i + 1) =
        Option.some (depthRule (_get_indent li) a (_get_indent li1))) := by
  constructor
  · cases lines with
    | nil => exact Or.inl rfl
    | cons l0 lt => exact Or.inr (by simp [fixed_indent_map])
  · intro i li li1 a h1 h2 h3
    rw [depthRule_eq_fixStep]
    exact fixed_indent_map_step lines i h1 h2 h3

/-- C2 (counterexample): on `["a", " b", "  c", "d"]` the code computes
depths `[0, 1, 2, 0]` while the claim's three-case rule computes
`[0, 1, 2, 1]`: the last line's raw indent (0) is strictly smaller than the
previous line's (2), yet its depth is 0, not the previous depth minus 1. -/
theorem fixed_indent_map_rule_cex :
    fixed_indent_map ["a", " b", "  c", "d"] = [0, 1, 2, 0] ∧
    fixed_indent_map_spec ["a", " b", "  c", "d"] = [0, 1, 2, 1] ∧
    _get_indent "d" < _get_indent "  c" ∧ (0 : Int) ≠ 2 - 1 := by
  decide

/-- C2 (witness): the amended rule applied to the input `["a", " b"]` at the
pair (0, 1). -/
theorem fixed_indent_map_rule_witness :
    (fixed_indent_map ["a", " b"]).get? 1 =
      Option.some (depthRule (_get_indent "a") 0 (_get_indent " b")) :=
  (fixed_indent_map_rule ["a", " b"]).2 0 "a" " b" 0 rfl rfl rfl

/-- C3 (amended): normalized depths are bounded below by the negation of the
line's 0-based index (the first line has depth 0); they are not non-negative
in general. -/
theorem fixed_indent_map_lower_bound (lines : List String) (i : Nat) (a : Int)
    (h : (fixed_indent_map lines).get? i = Option.some a) :
    -(i : Int) ≤ a := by
  cases lines with
  | nil => simp [fixed_indent_map] at h
  | cons l0 lt =>
    simp only [fixed_indent_map, List.map_cons] at h
    cases i with
    | zero =>
      simp only [List.get?_cons_zero, Option.some.injEq] at h
      omega
    | succ i =>
      simp only [List.get?_cons_succ] at h
      have := fixIndentsGo_lower (lt.map _get_indent) (_get_indent l0) 0 i h
      omega

/-- C3 (counterexample): on `["a", "   b", "  c", " d"]` (raw indents
0, 3, 2, 1) the normalized depths are `[0, 1, 0, -1]`: the last entry of the
fixed indent map is negative. -/
theorem fixed_indent_map_nonneg_cex :
    (fixed_indent_map ["a", "   b", "  c", " d"]).get? 3 =
      Option.some (-1) ∧ ¬(0 : Int) ≤ -1 := by
  decide

/-- C3 (witness): the lower bound applied to the input `["a", " b", "c"]` at
index 2. -/
theorem fixed_indent_map_lower_bound_witness : -((2 : Nat) : Int) ≤ (0 : Int) :=
  fixed_indent_map_lower_bound ["a", " b", "c"] 2 0 rfl

lemma dsetKey_lookup_self (d : Dict) (k : String) (v : Option String) :
    (dsetKey d k v).lookup k = Option.some v := by
  induction d with
  | nil => simp [dsetKey, List.lookup]
  | cons kv t ih =>
    by_cases hkv : kv.1 = k
    · simp [dsetKey, hkv, List.lookup]
    · have hne : (k == kv.1) = false :=
        beq_eq_false_iff_ne.mpr (fun hk => hkv hk.symm)
      simp [dsetKey, hkv, List.lookup, hne, ih]

lemma dsetKey_lookup_ne (d : Dict) (k k2 : String) (v : Option String)
    (hne : k2 ≠ k) : (dsetKey d k v).lookup k2 = d.lookup k2 := by
  have hb : (k2 == k) = false := beq_eq_false_iff_ne.mpr hne
  induction d with
  | nil => simp [dsetKey, List.lookup, hb]
  | cons kv t ih =>
    by_cases hkv : kv.1 = k
    · simp [dsetKey, hkv, List.lookup, hb, hkv ▸ hb]
    · simp [dsetKey, hkv, List.lookup, ih]

lemma dictUpdate_lookup_not_mem (u : Dict) (k : String)
    (h : k ∉ u.map Prod.fst) :
    ∀ d : Dict, (dictUpdate d u).lookup k = d.lookup k := by
  induction u with
  | nil => intro d; rfl
  | cons kv t ih =>
    intro d
    simp only [List.map_cons, List.mem_cons, not_or] at h
    have hstep : dictUpdate d (kv :: t) = dictUpdate (dsetKey d kv.1 kv.2) t := rfl
    rw [hstep, ih h.2 _, dsetKey_lookup_ne _ _ _ _ h.1]

lemma dictUpdate_lookup_mem (u : Dict) (k : String) (v : Option String)
    (hnd : (u.map Prod.fst).Nodup) (h : u.lookup k = Option.some v) :
    ∀ d : Dict, (dictUpdate d u).lookup k = Option.some v := by
  induction u with
  | nil => simp [List.lookup] at h
  | cons kv t ih =>
    intro d
    have hstep : dictUpdate d (kv :: t) = dictUpdate (dsetKey d kv.1 kv.2) t := rfl
    simp only [List.map_cons, List.nodup_cons] at hnd
    by_cases hk : (k == kv.1)
    · have hkeq : k = kv.1 := by simpa using hk
      simp only [List.lookup, hk, Option.some.injEq] at h
      rw [hstep, dictUpdate_lookup_not_mem _ _ (hkeq ▸ hnd.1), hkeq,
        dsetKey_lookup_self, h]
    · simp only [Bool.not_eq_true] at hk
      simp only [List.lookup, hk] at h
      rw [hstep, ih hnd.2 h _]

/-- C8: in `match_to_dict`, patterns are applied in list order and on a key
collision the later pattern's captured value overwrites the earlier one: when
`p1` and `p2` both match the node, the resulting dict's value at a key of
`p2`'s groupdict is `p2`'s captured value. -/
theorem match_to_dict_later_wins (self : BaseConfigParser) (line : ConfigLine)
    (p1 p2 : Pattern) (m1 m2 : ReMatch) (x : String) (v : Option String)
    (h1 : p1.search line.text = Option.some m1)
    (h2 : p2.search line.text = Option.some m2)
    (hnd : (m2.groups.map Prod.fst).Nodup)
    (hx : m2.groups.lookup x = Option.some v) :
    ∃ e : Dict, match_to_dict self line [p1, p2] = Except.ok e ∧
      e.lookup x = Option.some v := by
  refine ⟨dictUpdate (dictUpdate [] m1.groups) m2.groups, ?_, ?_⟩
  · simp [match_to_dict, matchToDictGo, ConfigLine.re_search, h1, h2]
  · exact dictUpdate_lookup_mem _ _ _ hnd hx _

/-- A pattern whose search never matches any text (such as the regex
`(?P<x>a)\bb`, which cannot be satisfied), with one named group `x`. -/
def patNever : Pattern :=
  ⟨fun _ => Option.none, ["x"]⟩

/-- A pattern that matches every text and captures `"A"` as group `x`. -/
def patCapA : Pattern :=
  ⟨fun s => Option.some ⟨s, [("x", Option.some "A")]⟩, ["x"]⟩

/-- A pattern that matches every text and captures `"B"` as group `x`. -/
def patCapB : Pattern :=
  ⟨fun s => Option.some ⟨s, [("x", Option.some "B")]⟩, ["x"]⟩

/-- C8 (witness): on a concrete node matched by both patterns, the result's
`x` is the second pattern's captured value `"B"`, not the first's `"A"`. -/
theorem match_to_dict_later_wins_witness :
    ∃ e : Dict,
      match_to_dict (BaseConfigParser.init 4) (ConfigLine.mk "A B" [])
        [patCapA, patCapB] = Except.ok e ∧
      e.lookup "x" = Option.some (Option.some "B") :=
  match_to_dict_later_wins (BaseConfigParser.init 4) (ConfigLine.mk "A B" [])
    patCapA patCapB ⟨"A B", [("x", Option.some "A")]⟩
    ⟨"A B", [("x", Option.some "B")]⟩ "x" (Option.some "B") rfl rfl
    (by decide) rfl

lemma matchToDictGo_unset_fail (line : ConfigLine) :
    ∀ (patterns : List Pattern) (entry : Dict),
      (∃ p ∈ patterns, p.search line.text = Option.none) →
      matchToDictGo Option.none line patterns entry =
        Except.error PyErr.attributeError := by
  intro patterns
  induction patterns with
  | nil => intro entry h; simp at h
  | cons p rest ih =>
    intro entry h
    cases hs : p.search line.text with
    | none => simp [matchToDictGo, ConfigLine.re_search, hs]
    | some m =>
      have hrest : ∃ q ∈ rest, q.search line.text = Option.none := by
        rcases h with ⟨q, hqmem, hqs⟩
        rcases List.mem_cons.mp hqmem with hq | hq
        · rw [hq, hs] at hqs; cases hqs
        · exact ⟨q, hq, hqs⟩
      simp only [matchToDictGo, ConfigLine.re_search, hs]
      exact ih _ hrest

/-- C10: `__init__` never assigns `minimal_results`; consequently, on a fresh
parser, `match_to_dict` with any pattern that fails to match raises
`AttributeError` (instead of applying the minimal-results policy), and so does
the zero-matching-children branch of `section_property_autoparse`'s pattern
loop. -/
theorem minimal_results_unset_raises (v : Nat) :
    (BaseConfigParser.init v).minimal_results = Option.none ∧
    (∀ (line : ConfigLine) (patterns : List Pattern),
      (∃ p ∈ patterns, p.search line.text = Option.none) →
      match_to_dict (BaseConfigParser.init v) line patterns =
        Except.error PyErr.attributeError) ∧
    (∀ (candidate : ConfigLine) (pattern : Pattern) (rest : List Pattern)
        (entry : Dict) (logs : List String),
      candidate.re_search_children (Option.some pattern)
          (Option.some GroupArg.all) = [] →
      spaPatterns (BaseConfigParser.init v).minimal_results candidate
        (pattern :: rest) entry logs = Except.error PyErr.attributeError) := by
  refine ⟨rfl, ?_, ?_⟩
  · intro line patterns h
    exact matchToDictGo_unset_fail line patterns [] h
  · intro candidate pattern rest entry logs h
    simp only [spaPatterns]
    rw [h]
    rfl

/-- C10 (witness): a fresh parser, a node, and a non-matching pattern:
`match_to_dict` returns `AttributeError`. -/
theorem minimal_results_unset_raises_witness :
    match_to_dict (BaseConfigParser.init 4) (ConfigLine.mk "hostname R1" [])
      [patNever] = Except.error PyErr.attributeError :=
  (minimal_results_unset_raises 4).2.1 (ConfigLine.mk "hostname R1" [])
    [patNever] ⟨patNever, by simp, rfl⟩

lemma re_search_eq_none (l : ConfigLine) (pat : Option Pattern)
    (group : Option GroupArg)
    (h : ∀ p, pat = Option.some p → p.search l.text = Option.none) :
    l.re_search pat group = PyVal.none := by
  cases pat with
  | none => rfl
  | some p =>
    simp only [ConfigLine.re_search, h p rfl]

lemma findMatchingLines_eq_nil (self : BaseConfigParser)
    (compile : String → Option Pattern) (regex : Sum String Pattern)
    (group : Option GroupArg)
    (h : ∀ l ∈ self.lines, ∀ p,
      effectivePattern compile regex = Option.some p →
      p.search l.text = Option.none) :
    findMatchingLines self compile regex group = [] := by
  unfold findMatchingLines
  rw [List.filter_eq_nil]
  intro l hl
  rw [re_search_eq_none l _ group (h l hl)]
  simp [PyVal.truthy]

lemma findResults_eq_nil (self : BaseConfigParser)
    (compile : String → Option Pattern) (regex : Sum String Pattern)
    (group : Option GroupArg)
    (h : ∀ l ∈ self.lines, ∀ p,
      effectivePattern compile regex = Option.some p →
      p.search l.text = Option.none) :
    findResults self compile regex group = [] := by
  unfold findResults
  rw [List.filterMap_eq_nil]
  intro l hl
  rw [re_search_eq_none l _ group (h l hl)]
  rfl

/-- C6: a pattern that matches no node's text — including a text pattern
whose compilation fails, which `_compile_regex` degrades to a null pattern —
makes `find_objects` return an empty list; the model is total, so no
exception can escape. -/
theorem find_objects_no_match (self : BaseConfigParser)
    (compile : String → Option Pattern) (regex : Sum String Pattern)
    (group : Option GroupArg)
    (h : ∀ l ∈ self.lines, ∀ p,
      effectivePattern compile regex = Option.some p →
      p.search l.text = Option.none) :
    find_objects self compile regex group =
      match group with
      | Option.none => Sum.inl []
      | Option.some _ => Sum.inr [] := by
  cases group with
  | none =>
    simp only [find_objects]
    rw [findMatchingLines_eq_nil self compile regex _ h]
  | some g =>
    simp only [find_objects]
    rw [findResults_eq_nil self compile regex _ h]

/-- The compilation oracle for an invalid regex text: compilation fails, the
source logs the error and works on with a null pattern. -/
def compileFail : String → Option Pattern :=
  fun _ => Option.none

/-- A one-line parser state: the node list holds the single node
`hostname R1` and `minimal_results` was assigned `False`. -/
def sampleParser : BaseConfigParser :=
  ⟨4, [ConfigLine.mk "hostname R1" []], Option.some false⟩

/-- C6 (witness): searching the one-line parser with the invalid regex text
`"["` (its compilation fails) returns the empty node list. -/
theorem find_objects_no_match_witness :
    find_objects sampleParser compileFail (Sum.inl "[") Option.none =
      Sum.inl [] :=
  find_objects_no_match sampleParser compileFail (Sum.inl "[") Option.none
    (fun _ _ _ hp => Option.noConfusion hp)

/-- C4 (amended): when the candidate pattern matches no node,
`property_autoparse` returns Python `None` (the `properties = None` initial
value), not an empty list and not an error. -/
theorem property_autoparse_no_candidates (self : BaseConfigParser)
    (compile : String → Option Pattern) (candidate_pattern : Sum String Pattern)
    (patterns : List Pattern)
    (h : ∀ l ∈ self.lines, ∀ p,
      effectivePattern compile candidate_pattern = Option.some p →
      p.search l.text = Option.none) :
    property_autoparse self compile candidate_pattern patterns =
      Except.ok Option.none := by
  simp only [property_autoparse]
  rw [findMatchingLines_eq_nil self compile candidate_pattern _ h]
  rfl

/-- C4 (counterexample): on the one-line parser and a pattern matching no
text, `property_autoparse` returns `None`, which is not the empty list of
dictionaries. -/
theorem property_autoparse_none_cex :
    property_autoparse sampleParser compileFail (Sum.inr patNever) [] =
      Except.ok Option.none ∧
    (Except.ok Option.none :
        Except PyErr (Option (List Dict))) ≠
      Except.ok (Option.some ([] : List Dict)) := by
  exact ⟨rfl, by simp⟩

/-- C4 (witness): the amended statement applied to the one-line parser and a
pattern matching no text. -/
theorem property_autoparse_no_candidates_witness :
    property_autoparse sampleParser compileFail (Sum.inr patNever) [] =
      Except.ok Option.none :=
  property_autoparse_no_candidates sampleParser compileFail (Sum.inr patNever)
    [] (fun _ _ p hp => by cases hp; rfl)

/-- C7 (amended): with a group name, `find_objects` returns, in node order,
one captured value per node whose text matches the pattern and whose captured
value is truthy; a matching node whose group captured the empty string (or
did not capture) contributes nothing, because the loop keeps only truthy
`re_search` results. -/
theorem find_objects_group_values (self : BaseConfigParser)
    (compile : String → Option Pattern) (p : Pattern) (g : String) :
    find_objects self compile (Sum.inr p) (Option.some (GroupArg.name g)) =
      Sum.inr (self.lines.filterMap (fun l =>
        match p.search l.text with
        | Option.none => Option.none
        | Option.some m =>
          match m.groups.lookup g with
          | Option.some (Option.some v) =>
            if v.isEmpty then Option.none else Option.some (PyVal.str v)
          | _ => Option.none)) := by
  simp only [find_objects, findResults]
  refine congrArg (fun fn => Sum.inr (List.filterMap fn self.lines)) (funext ?_)
  intro l
  cases hs : p.search l.text with
  | none => simp [ConfigLine.re_search, effectivePattern, hs, PyVal.truthy]
  | some m =>
    cases hg : m.groups.lookup g with
    | none => simp [ConfigLine.re_search, effectivePattern, hs, hg, PyVal.truthy]
    | some ov =>
      cases ov with
      | none => simp [ConfigLine.re_search, effectivePattern, hs, hg, PyVal.truthy]
      | some v =>
        by_cases hv : v.isEmpty <;>
          simp [ConfigLine.re_search, effectivePattern, hs, hg, PyVal.truthy, hv]

/-- A pattern that matches every text and captures the empty string as group
`x` (such as the regex `(?P<x>x?)` at a position where `x` does not occur). -/
def patEmptyCap : Pattern :=
  ⟨fun s => Option.some ⟨s, [("x", Option.some "")]⟩, ["x"]⟩

/-- C7 (counterexample): the one-line parser's single node matches
`patEmptyCap`, but `find_objects` with group `x` returns no value at all for
it — the captured empty string is falsy and is dropped, so the result is not
one value per matching node. -/
theorem find_objects_group_empty_capture_cex :
    sampleParser.lines = [ConfigLine.mk "hostname R1" []] ∧
    (patEmptyCap.search (ConfigLine.mk "hostname R1" []).text).isSome = true ∧
    find_objects sampleParser compileFail (Sum.inr patEmptyCap)
      (Option.some (GroupArg.name "x")) = Sum.inr [] :=
  ⟨rfl, rfl, rfl⟩

/-- C5: one step of the `get_section_by_parents` walk over the current
candidate set: exactly one candidate that is a parent and matches the pattern
hands its children to the rest of the walk; zero matches or more than one
match end the walk with an empty section and the corresponding log message —
never a fallback to the first match.  (`get_section_by_parents self parents`
is `sectionWalk parents self.lines` by definition.) -/
theorem get_section_by_parents_cases (parent : Pattern) (rest : List Pattern)
    (sec : List ConfigLine) :
    (∀ x : ConfigLine,
      sec.filter (fun y => y.is_parent && y.re_match parent) = [x] →
      sectionWalk (parent :: rest) sec = sectionWalk rest x.get_children) ∧
    (sec.filter (fun y => y.is_parent && y.re_match parent) = [] →
      sectionWalk (parent :: rest) sec = ([], [noLinesMatchedMsg])) ∧
    (∀ (x1 x2 : ConfigLine) (xs : List ConfigLine),
      sec.filter (fun y => y.is_parent && y.re_match parent) = x1 :: x2 :: xs →
      sectionWalk (parent :: rest) sec = ([], [multipleLinesMatchedMsg])) := by
  refine ⟨?_, ?_, ?_⟩
  · intro x hx
    simp [sectionWalk, hx]
  · intro hx
    simp [sectionWalk, hx]
  · intro x1 x2 xs hx
    simp [sectionWalk, hx]

/-- The children of the sample node `interface Ethernet0/0`. -/
def eth0Children : List ConfigLine :=
  [ConfigLine.mk " description Test" []]

/-- A sample parent node `interface Ethernet0/0` with one child. -/
def eth0 : ConfigLine :=
  ConfigLine.mk "interface Ethernet0/0" eth0Children

/-- A sample parent node `interface Ethernet0/1` with one child. -/
def eth1 : ConfigLine :=
  ConfigLine.mk "interface Ethernet0/1" [ConfigLine.mk " shutdown" []]

/-- A pattern matching exactly the text `interface Ethernet0/0` (such as the
regex `Ethernet0/0` over these two interface lines). -/
def patEth0 : Pattern :=
  ⟨fun s => if s = "interface Ethernet0/0" then Option.some ⟨s, []⟩
    else Option.none, []⟩

/-- A pattern that matches every text (such as the empty regex), with no
groups. -/
def patAll : Pattern :=
  ⟨fun s => Option.some ⟨s, []⟩, []⟩

/-- C5 (witness): over the two sibling interfaces, a uniquely matching
pattern yields exactly that interface's children; a never-matching pattern
yields the empty section with the no-match log; a pattern matching both
yields the empty section with the ambiguity log. -/
theorem get_section_by_parents_cases_witness :
    sectionWalk [patEth0] [eth0, eth1] = (eth0Children, []) ∧
    sectionWalk [patNever] [eth0, eth1] = ([], [noLinesMatchedMsg]) ∧
    sectionWalk [patAll] [eth0, eth1] = ([], [multipleLinesMatchedMsg]) :=
  ⟨(get_section_by_parents_cases patEth0 [] [eth0, eth1]).1 eth0 rfl,
    (get_section_by_parents_cases patNever [] [eth0, eth1]).2.1 rfl,
    (get_section_by_parents_cases patAll [] [eth0, eth1]).2.2 eth0 eth1 [] rfl⟩

lemma re_search_children_all_length (c : ConfigLine) (p : Pattern) :
    (c.re_search_children (Option.some p) (Option.some GroupArg.all)).length =
      (c.get_children.filter (fun ch => (p.search ch.text).isSome)).length := by
  unfold ConfigLine.re_search_children
  induction c.get_children with
  | nil => rfl
  | cons ch t ih =>
    cases hs : p.search ch.text with
    | none =>
      simp only [List.filterMap_cons, List.filter_cons, ConfigLine.re_search, hs]
      simpa using ih
    | some m =>
      simp only [List.filterMap_cons, List.filter_cons, ConfigLine.re_search, hs]
      simpa using ih

/-- C9: in `section_property_autoparse`'s pattern loop, when more than one
direct child of the candidate matches the pattern, the warning is logged and
the pattern contributes nothing to the entry: the walk continues with the
entry unchanged. -/
theorem section_property_autoparse_multi_child_skip
    (minimal_results : Option Bool) (candidate : ConfigLine)
    (pattern : Pattern) (rest : List Pattern) (entry : Dict)
    (logs : List String)
    (h : 1 < (candidate.get_children.filter
      (fun ch => (pattern.search ch.text).isSome)).length) :
    spaPatterns minimal_results candidate (pattern :: rest) entry logs =
      spaPatterns minimal_results candidate rest entry
        (logs ++ [multipleUpdatesMsg]) := by
  have hl : 1 < (candidate.re_search_children (Option.some pattern)
      (Option.some GroupArg.all)).length := by
    rw [re_search_children_all_length]
    exact h
  cases hu : candidate.re_search_children (Option.some pattern)
      (Option.some GroupArg.all) with
  | nil => rw [hu] at hl; simp at hl
  | cons u1 t1 =>
    cases t1 with
    | nil => rw [hu] at hl; simp at hl
    | cons u2 t2 =>
      simp only [spaPatterns]
      rw [hu]
      cases u1 <;> rfl

/-- A sample parent node with two children that both match `patAll`. -/
def twoKids : ConfigLine :=
  ConfigLine.mk "interface Ethernet0/0"
    [ConfigLine.mk " a" [], ConfigLine.mk " b" []]

/-- C9 (witness): with a candidate whose two children both match the
pattern, the step logs the warning and leaves the (empty) entry unchanged. -/
theorem section_property_autoparse_multi_child_skip_witness :
    spaPatterns (Option.some false) twoKids [patAll] [] [] =
      Except.ok ([], [multipleUpdatesMsg]) :=
  section_property_autoparse_multi_child_skip (Option.some false) twoKids
    patAll [] [] [] (by decide)

end NetParser
